import Mathlib

/-!
Shallow embedding of `src/streamlit_app.py` (Medication Order Calculator).

Modelling conventions:
* a pandas cell is a `PyVal` (string, integer-valued number, or null/NaN) for the
  product-key builder, and an `Option ℚ` (with `none` playing the role of the
  float NaN produced by joins) for the numeric order-quantity calculator;
* a pandas row is a partial map `String → Option PyVal` from column name to value,
  so `row.get(col, default)` becomes `pyGet`;
* CPython's builtin `max(a, b)` keeps the first argument unless `b > a` holds, and
  every comparison involving NaN is false; `pyLt`/`pymax` reproduce exactly that;
* `pd.merge` is modelled on key/value lists: each left row is paired with every
  key-equal right row, and unmatched rows get a null for the other side.
-/

/-- Scalar cell of an input row: null (NaN), a string, or an integer-valued number. -/
inductive PyVal where
  | null : PyVal
  | str : String → PyVal
  | num : Int → PyVal
deriving DecidableEq

/-- Default used by the `row.get(col, '')` calls: the empty Python string. -/
def defaultCell : PyVal := PyVal.str ("")

/-- Value of `row.get(c, dflt)`: the cell when the column is present, else the default. -/
def pyGet (row : String → Option PyVal) (c : String) (dflt : PyVal) : PyVal :=
  (row c).getD dflt

/-- Rendering of a cell by `str(...)` or an f-string; the float NaN prints as `nan`. -/
def pyRender : PyVal → String
  | PyVal.null => "nan"
  | PyVal.str s => s
  | PyVal.num n => toString n

/-- Checks whether a cell is a number; `(3.0).startswith` raises AttributeError. -/
def isNum : PyVal → Bool
  | PyVal.num _ => true
  | _ => false

/-- Lowercasing of a Python string, character by character (`.lower()`). -/
def strLower (s : String) : String := String.mk (s.data.map Char.toLower)

/-- Whitespace stripping from both ends of a Python string (`.strip()`). -/
def strTrim (s : String) : String :=
  String.mk (((s.data.dropWhile Char.isWhitespace).reverse.dropWhile
    Char.isWhitespace).reverse)

/-- Test of `.startswith(pre)`: the characters of `pre` are a prefix of `s`. -/
def strStarts (s pre : String) : Bool := pre.data.isPrefixOf s.data

/-- Python slice `s[n:]` in characters. -/
def strDropN (s : String) (n : Nat) : String := String.mk (s.data.drop n)

/-- Column role mapping `{name, description, package_qty, form}` given to the builder. -/
structure ColMap where
  name : String
  description : String
  package_qty : String
  form : String

/-- Description after the prefix-stripping step of `preprocess_product`: a string
that starts with the prefix loses exactly that prefix; any other value (including a
null, for which `pd.notnull` fails) is left unchanged. -/
def stripD (d : PyVal) (ignore_pre : String) : PyVal :=
  match d with
  | PyVal.str s =>
      if strStarts s ignore_pre then PyVal.str (strDropN s ignore_pre.data.length)
      else PyVal.str s
  | x => x

/-- The f-string of `preprocess_product`:
`f"{name} {description} {package_qty} ({str(form).strip().lower()})"`,
with every field read by `row.get(col, '')`. -/
def mkKey (row : String → Option PyVal) (columns : ColMap) (d : PyVal) : String :=
  pyRender (pyGet row columns.name defaultCell) ++ " " ++ pyRender d ++ " " ++
    pyRender (pyGet row columns.package_qty defaultCell) ++ " (" ++
    strLower (strTrim (pyRender (pyGet row columns.form defaultCell))) ++ ")"

/-- Translation of `preprocess_product(row, columns, ignore_prefix)` from the source:
reads the description with default `''`; when `pd.notnull(description)` holds and the
description is a string starting with the prefix, strips it once from the start; a
numeric description passes the notnull test and then raises `AttributeError` on
`.startswith`, which we surface as `Except.error`. -/
def preprocess_product (row : String → Option PyVal) (columns : ColMap)
    ( ignore_pre : String) : Except String String :=
  match pyGet row columns.description defaultCell with
  | PyVal.num _ => Except.error ("AttributeError")
  | PyVal.null => Except.ok (mkKey row columns PyVal.null)
  | PyVal.str s =>
      Except.ok (mkKey row columns
        (if strStarts s ignore_pre then PyVal.str (strDropN s ignore_pre.data.length)
         else PyVal.str s))

/-- Fields of a reconciled row consumed by `calculate_quantity_to_order`;
`none` models the NaN left by the joins and the `None` override. -/
structure ReconRow where
  total_units_past_2_months : Option ℚ
  total_units_past_6_months : Option ℚ
  target_qty_on_hand_override : Option ℚ
  on_hand : Option ℚ
deriving DecidableEq

/-- Python `<` on floats: every comparison involving NaN is false. -/
def pyLt : Option ℚ → Option ℚ → Bool
  | some a, some b => decide (a < b)
  | _, _ => false

/-- CPython builtin `max(a, b)`: returns `b` exactly when `b > a`, else `a`;
asymmetric in the presence of NaN. -/
def pymax (a b : Option ℚ) : Option ℚ := if pyLt a b then b else a

/-- Float subtraction: NaN propagates. -/
def pySub : Option ℚ → Option ℚ → Option ℚ
  | some a, some b => some (a - b)
  | _, _ => none

/-- Behaviour of `pd.notnull` on a scalar cell. -/
def pd_notnull (x : Option ℚ) : Bool := x.isSome

/-- Translation of `calculate_quantity_to_order(row, target_months)` from the source. -/
def calculate_quantity_to_order (row : ReconRow) (target_months : ℚ) : Option ℚ :=
  let avg_dispensed := Option.map (fun u => u / (6 / target_months))
    row.total_units_past_6_months
  let max_dispensed := pymax row.total_units_past_2_months avg_dispensed
  let target_qty := if pd_notnull row.target_qty_on_hand_override then
    row.target_qty_on_hand_override else max_dispensed
  pymax (some 0) (pySub target_qty row.on_hand)

/-- Specification variant of the calculator, following the spec's words for the
null policy: a null `total_units_past_2_months` or `total_units_past_6_months` is
treated as zero dispensed in the avg/max computation. Used only to compare the
spec's claimed null handling with the source's actual behaviour. -/
def calcNullAsZeroSpec (row : ReconRow) (target_months : ℚ) : Option ℚ :=
  let h6 := row.total_units_past_6_months.getD 0
  let h2 := row.total_units_past_2_months.getD 0
  let avg_dispensed := h6 / (6 / target_months)
  let max_dispensed := max h2 avg_dispensed
  let target_qty := (row.target_qty_on_hand_override).getD max_dispensed
  some (max 0 (target_qty - (row.on_hand).getD 0))

/-- One header under `.str.replace(' ', '_')`: the pattern is the single space
character, so the replacement is a character-wise substitution. -/
def underscoreSpaces (s : String) : String :=
  String.mk (s.data.map (fun c => if c = ' ' then '_' else c))

/-- Translation of `standardize_columns`: lowercase every header, then replace
spaces with underscores. -/
def standardize_columns (cols : List String) : List String :=
  cols.map (fun s => underscoreSpaces (strLower s))

/-- Outer `pd.merge` on the key of two key/value tables: every left row is paired
with each key-equal right row (or with a null when unmatched), and right rows whose
key never occurs on the left are appended with a null on the left side. -/
def outerMerge (a b : List (String × Option ℚ)) :
    List (String × Option ℚ × Option ℚ) :=
  (a.flatMap (fun ra =>
    let ms := b.filter (fun rb => rb.1 == ra.1)
    if ms.isEmpty then [(ra.1, ra.2, none)]
    else ms.map (fun rb => (ra.1, ra.2, rb.2)))) ++
  ((b.filter (fun rb => !(a.any (fun ra => ra.1 == rb.1)))).map
    (fun rb => (rb.1, none, rb.2)))

/-- Left `pd.merge`: every left row is paired with each key-equal row of the right
key/value table, or with a null when the right table has no such key. -/
def leftMergeOn {α : Type} (rows : List α) (key : α → String)
    (tbl : List (String × Option ℚ)) : List (α × Option ℚ) :=
  rows.flatMap (fun r =>
    let ms := tbl.filter (fun t => t.1 == key r)
    if ms.isEmpty then [(r, none)] else ms.map (fun t => (r, t.2)))

/-- Series.combine_first on one cell: keep the first value when non-null,
otherwise fall back to the second. -/
def combine_first (a b : Option ℚ) : Option ℚ := if a.isSome then a else b

/-- Row of the reconciled table after the merges, the `on_hand` resolution and
the drop of the fallback `on_hand_meds` column. -/
structure CombinedRow where
  product : String
  total_units_past_2_months : Option ℚ
  total_units_past_6_months : Option ℚ
  on_hand : Option ℚ
deriving DecidableEq

/-- Translation of the merge section of `main` (lines 59-70): outer join of the
two dispensed tables on `product`, left join of products-on-hand then of
meds-on-hand, `combine_first` resolution of the two on-hand columns, and drop of
`on_hand_meds`. -/
def reconcile (d2 d6 prods meds : List (String × Option ℚ)) : List CombinedRow :=
  let c0 := outerMerge d2 d6
  let c1 := leftMergeOn c0 (fun r => r.1) prods
  let c2 := leftMergeOn c1 (fun r => r.1.1) meds
  c2.map (fun p =>
    { product := p.1.1.1
      total_units_past_2_months := p.1.1.2.1
      total_units_past_6_months := p.1.1.2.2
      on_hand := combine_first p.1.2 p.2 })

/-- Value a key/value table associates to a key: the value of the first row
carrying the key, or null when the key is absent. -/
def lookupVal (tbl : List (String × Option ℚ)) (k : String) : Option ℚ :=
  match tbl.find? (fun t => t.1 == k) with
  | some t => t.2
  | none => none

/-- The `required_columns` list of `main`. -/
def required_columns : List String :=
  ["total_units_past_6_months", "total_units_past_2_months", "on_hand"]

/-- The `missing_columns` comprehension of `main`: required columns not present. -/
def missing_columns (cols : List String) : List String :=
  required_columns.filter (fun c => !(cols.contains c))

/-- Translation of the guarded calculation of `main` (lines 84-90): when some
required column is missing the run stops with exactly the missing-column list and
no row is computed; otherwise every row gets its `qty_to_order`. -/
def run_calculation (cols : List String) (rows : List ReconRow) (target_months : ℚ) :
    Except (List String) (List (Option ℚ)) :=
  if missing_columns cols = [] then
    Except.ok (rows.map (fun r => calculate_quantity_to_order r target_months))
  else Except.error (missing_columns cols)

/-- Role mapping used for both dispensed tables in `main` (lines 47-51):
the physical column `containers` plays both the package-qty and the form role. -/
def dispensedColumns : ColMap :=
  { name := "generic", description := "qty_x_form", package_qty := "containers"
    form := "containers" }

/-- Role mapping used for the meds-on-hand table in `main` (lines 41-42). -/
def medsColumns : ColMap :=
  { name := "generic_name", description := "description"
    package_qty := "package_qty", form := "form" }

/-- Row constructor from an association list of cells. -/
def rowOf (cells : List (String × PyVal)) : String → Option PyVal :=
  fun c => (cells.find? (fun p => p.1 == c)).map (fun p => p.2)

/-- Concrete dispensed-table row used to discuss key collisions. -/
def dispRowC : String → Option PyVal :=
  rowOf [("generic", PyVal.str ("A")), ("qty_x_form", PyVal.str ("B C")),
         ("containers", PyVal.str ("3"))]

/-- Concrete meds-on-hand row whose key collides with `dispRowC`'s key although
its package-qty differs from the dispensed containers value. -/
def medsRowC : String → Option PyVal :=
  rowOf [("generic_name", PyVal.str ("A")), ("description", PyVal.str ("B")),
         ("package_qty", PyVal.str ("C 3")), ("form", PyVal.str ("3"))]

/-- Row with no columns at all. -/
def emptyRow : String → Option PyVal := fun _ => none

/-- Concrete meds-on-hand row of the spec's end-to-end scenario. -/
def ibuRowC : String → Option PyVal :=
  rowOf [("generic_name", PyVal.str ("Ibuprofen")),
         ("description", PyVal.str ("1 x 200mg")),
         ("package_qty", PyVal.num 100), ("form", PyVal.str ("Tablet"))]

/-- Concrete row that lacks the name, package-qty and form columns and whose
description cell holds the number 5 (as when a CSV description column parses as
numeric). -/
def numRowC : String → Option PyVal := rowOf [("description", PyVal.num 5)]

/-- Concrete dispensed-2-months key/value table for witnesses. -/
def d2C : List (String × Option ℚ) := [("k1", some 10), ("k2", some 20)]

/-- Concrete dispensed-6-months key/value table for witnesses. -/
def d6C : List (String × Option ℚ) := [("k3", some 30)]

/-- Concrete products-on-hand key/value table for witnesses. -/
def prodsC : List (String × Option ℚ) := [("k1", some 5), ("k2", none)]

/-- Concrete meds-on-hand key/value table for witnesses. -/
def medsC : List (String × Option ℚ) :=
  [("k1", some 7), ("k2", some 9), ("k3", some 3)]

instance decEqExceptStr : DecidableEq (Except String String) := fun a b =>
  match a, b with
  | Except.error x, Except.error y =>
      if h : x = y then Decidable.isTrue (congrArg Except.error h)
      else Decidable.isFalse (fun hh => h (Except.error.inj hh))
  | Except.ok x, Except.ok y =>
      if h : x = y then Decidable.isTrue (congrArg Except.ok h)
      else Decidable.isFalse (fun hh => h (Except.ok.inj hh))
  | Except.error _, Except.ok _ => Decidable.isFalse (fun hh => Except.noConfusion hh)
  | Except.ok _, Except.error _ => Decidable.isFalse (fun hh => Except.noConfusion hh)

lemma pymax_some_some (a b : ℚ) : pymax (some a) (some b) = some (max a b) := by
  simp only [pymax, pyLt]
  by_cases h : a < b
  · simp [h, max_eq_right h.le]
  · simp [h, max_eq_left (le_of_not_lt h)]

lemma pymax_none_right (a : Option ℚ) : pymax a none = a := by
  cases a <;> simp [pymax, pyLt]

lemma pymax_none_left (b : Option ℚ) : pymax none b = none := by
  cases b <;> simp [pymax, pyLt]

/-- C1: for a reconciled row with non-null history fields and non-null `on_hand`,
and target months `T` with `1 ≤ T ≤ 12`, `calculate_quantity_to_order` returns
`max 0 (target_qty - on_hand)` with `avg_dispensed = h6 / (6 / T)`,
`max_dispensed = max h2 avg_dispensed` and `target_qty` the override when non-null,
else `max_dispensed`; a non-null override strictly determines `target_qty`
regardless of the dispensed history values. -/
theorem calc_formula (h2 h6 oh : ℚ) (ov : Option ℚ) (T : ℚ)
    (hT1 : 1 ≤ T) (hT2 : T ≤ 12) :
    calculate_quantity_to_order ⟨some h2, some h6, ov, some oh⟩ T =
      some (max 0 (ov.getD (max h2 (h6 / (6 / T))) - oh)) ∧
    ∀ o : ℚ, ov = some o →
      calculate_quantity_to_order ⟨some h2, some h6, ov, some oh⟩ T =
        some (max 0 (o - oh)) := by
  constructor
  · cases ov with
    | none =>
        simp only [calculate_quantity_to_order, pd_notnull, Option.isSome, Option.map,
          Bool.false_eq_true, if_false, pymax_some_some, pySub, Option.getD]
    | some o =>
        simp only [calculate_quantity_to_order, pd_notnull, Option.isSome, Option.map,
          if_true, pySub, Option.getD]
        rw [pymax_some_some]
  · rintro o rfl
    simp only [calculate_quantity_to_order, pd_notnull, Option.isSome, Option.map,
      if_true, pySub]
    rw [pymax_some_some]

/-- C1 witness: dispensed 80 over 2 months, 90 over 6 months, 50 on hand, no
override, target 2 months gives an order quantity of 30. -/
theorem calc_formula_witness :
    calculate_quantity_to_order ⟨some 80, some 90, none, some 50⟩ 2 = some 30 := by
  have h := (calc_formula 80 90 50 none 2 (by norm_num) (by norm_num)).1
  rw [h]
  norm_num [max_def]

/-- C2 counterexample: on the row with null 2-month history, 6-month total 90, no
override and 0 on hand at target 2 months, the code returns 0 while the
treat-null-as-zero reading of the formula returns 30, so
`calculate_quantity_to_order` does not treat a null 2-month history as zero. -/
theorem calc_null_not_zero :
    calculate_quantity_to_order ⟨none, some 90, none, some 0⟩ 2 = some 0 ∧
    calcNullAsZeroSpec ⟨none, some 90, none, some 0⟩ 2 = some 30 ∧
    calculate_quantity_to_order ⟨none, some 90, none, some 0⟩ 2 ≠
      calcNullAsZeroSpec ⟨none, some 90, none, some 0⟩ 2 := by
  refine ⟨?_, ?_, ?_⟩
  · norm_num [calculate_quantity_to_order, pymax, pyLt, pySub, pd_notnull]
  · norm_num [calcNullAsZeroSpec]
  · norm_num [calculate_quantity_to_order, calcNullAsZeroSpec, pymax, pyLt, pySub,
      pd_notnull]

/-- C2 (amended): a null `total_units_past_6_months` makes `avg_dispensed` null
and `max` keeps the non-null 2-month total, so the result agrees with the
null-as-zero policy whenever that total is non-negative; a null
`total_units_past_2_months` (with null override) propagates NaN-style through
`max` and the subtraction, and the final `max(0, ·)` yields 0 regardless of the
6-month history and the on-hand value; neither the division nor the comparisons
raise on null history values. -/
theorem calc_null_history (h2v h6v oh T : ℚ) (hT1 : 1 ≤ T) (hT2 : T ≤ 12) :
    calculate_quantity_to_order ⟨none, some h6v, none, some oh⟩ T = some 0 ∧
    calculate_quantity_to_order ⟨some h2v, none, none, some oh⟩ T =
      some (max 0 (h2v - oh)) := by
  constructor
  · simp [calculate_quantity_to_order, pd_notnull, pymax_none_left, pySub, pymax,
      pyLt]
  · simp only [calculate_quantity_to_order, pd_notnull, Option.isSome, Option.map,
      Bool.false_eq_true, if_false, pymax_none_right, pySub]
    rw [pymax_some_some]

/-- C2 witness: with 50 on hand and target 2 months, the null-2-month row with
6-month total 90 yields 0 and the null-6-month row with 2-month total 80 yields
30. -/
theorem calc_null_history_witness :
    calculate_quantity_to_order ⟨none, some 90, none, some 50⟩ 2 = some 0 ∧
    calculate_quantity_to_order ⟨some 80, none, none, some 50⟩ 2 = some 30 := by
  have h := calc_null_history 80 90 50 2 (by norm_num) (by norm_num)
  exact ⟨h.1, by rw [h.2]; norm_num [max_def]⟩

/-- C3: for every reconciled row and target-months value, the returned
`qty_to_order` is a non-null, non-negative quantity. -/
theorem qty_to_order_nonneg (row : ReconRow) (T : ℚ) (hT1 : 1 ≤ T) (hT2 : T ≤ 12) :
    calculate_quantity_to_order row T =
      some ((calculate_quantity_to_order row T).getD 0) ∧
    0 ≤ (calculate_quantity_to_order row T).getD 0 := by
  have key : ∀ x : Option ℚ, pymax (some 0) x = some ((pymax (some 0) x).getD 0) ∧
      0 ≤ (pymax (some 0) x).getD 0 := by
    intro x
    cases x with
    | none => simp [pymax, pyLt]
    | some v =>
      by_cases h : (0 : ℚ) < v
      · simp [pymax, pyLt, h, le_of_lt h]
      · simp [pymax, pyLt, h]
  simp only [calculate_quantity_to_order]
  exact key _

/-- C3 witness: the scenario row (30 over 2 months, 90 over 6 months, 50 on hand)
at target 2 months has a non-null, non-negative order quantity. -/
theorem qty_to_order_nonneg_witness :
    calculate_quantity_to_order ⟨some 30, some 90, none, some 50⟩ 2 =
      some ((calculate_quantity_to_order ⟨some 30, some 90, none, some 50⟩ 2).getD 0) ∧
    0 ≤ (calculate_quantity_to_order ⟨some 30, some 90, none, some 50⟩ 2).getD 0 :=
  qty_to_order_nonneg ⟨some 30, some 90, none, some 50⟩ 2 (by norm_num) (by norm_num)

lemma preprocess_eq (row : String → Option PyVal) (columns : ColMap)
    ( ignore_pre : String)
    (hnd : isNum (pyGet row columns.description defaultCell) = false) :
    preprocess_product row columns ignore_pre =
      Except.ok (mkKey row columns
        (stripD (pyGet row columns.description defaultCell) ignore_pre)) := by
  cases h : pyGet row columns.description defaultCell with
  | null => simp [preprocess_product, h, stripD]
  | str s => simp [preprocess_product, h, stripD]
  | num n => simp [isNum, h] at hnd

/-- C6: for a row whose description cell holds the string `s`, the builder strips
the ignore prefix exactly once from the start when `s` starts with it, and leaves
`s` unchanged otherwise. -/
theorem strip_once (row : String → Option PyVal) (columns : ColMap)
    ( ignore_pre : String) (s : String)
    (hd : row columns.description = some (PyVal.str s)) :
    preprocess_product row columns ignore_pre =
      Except.ok (mkKey row columns
        (PyVal.str (if strStarts s ignore_pre then strDropN s ignore_pre.data.length
          else s))) := by
  simp [preprocess_product, pyGet, hd, apply_ite]
  split_ifs <;> intro h <;> simp_all

/-- C6 witness: the spec scenario row with description `1 x 200mg` builds the key
`Ibuprofen 200mg 100 (tablet)`: the prefix `1 x ` is stripped once from the
start. -/
theorem strip_once_witness :
    preprocess_product ibuRowC medsColumns ("1 x ") =
      Except.ok ("Ibuprofen 200mg 100 (tablet)") := by
  have h := strip_once ibuRowC medsColumns ("1 x ") ("1 x 200mg") (by decide)
  rw [h]
  decide

/-- C8 counterexample: on a row that lacks the name, package-qty and form
columns but whose description cell holds the number 5, the builder raises
`AttributeError` — `pd.notnull(5)` passes and a float has no `.startswith` — so
the builder does not never-error on rows lacking mapped columns, and its output
is not always a single string. -/
theorem builder_errors_on_numeric_description :
    preprocess_product numRowC medsColumns ("1 x ") =
      Except.error ("AttributeError") ∧
    numRowC ("generic_name") = none ∧ numRowC ("package_qty") = none ∧
    numRowC ("form") = none := by
  refine ⟨by decide, by decide, by decide, by decide⟩

/-- C8 (amended): except when the description cell holds a number — the only
failure path, on which `.startswith` raises `AttributeError` — the builder never
errors: for every row whose description cell is absent, null or a string (an
absent description column defaults to the empty string), the output is the
single string `"{name} {description} {package_qty} ({form trimmed lowercased})"`
and every role whose column is absent from the row contributes the empty string
to the key. -/
theorem builder_tolerates_missing (row : String → Option PyVal) (columns : ColMap)
    ( ignore_pre : String)
    (hnd : isNum (pyGet row columns.description defaultCell) = false) :
    preprocess_product row columns ignore_pre =
      Except.ok (mkKey row columns
        (stripD (pyGet row columns.description defaultCell) ignore_pre)) ∧
    (row columns.name = none → pyRender (pyGet row columns.name defaultCell) = "") ∧
    (row columns.description = none →
      pyRender (stripD (pyGet row columns.description defaultCell) ignore_pre) = "") ∧
    (row columns.package_qty = none →
      pyRender (pyGet row columns.package_qty defaultCell) = "") ∧
    (row columns.form = none →
      strLower (strTrim (pyRender (pyGet row columns.form defaultCell))) = "") := by
  refine ⟨preprocess_eq row columns ignore_pre hnd, ?_, ?_, ?_, ?_⟩
  · intro h
    simp [pyGet, h, defaultCell, pyRender]
  · intro h
    simp only [pyGet, h, Option.getD, defaultCell, stripD]
    split_ifs <;> simp [strDropN, pyRender, strStarts]
  · intro h
    simp [pyGet, h, defaultCell, pyRender]
  · intro h
    simp [pyGet, h, defaultCell, pyRender, strTrim, strLower]

/-- C8 witness: a row with no columns at all builds the key `"   ()"` without
erroring, every field rendering as the empty string. -/
theorem builder_tolerates_missing_witness :
    preprocess_product emptyRow medsColumns ("1 x ") = Except.ok ("   ()") := by
  have h := (builder_tolerates_missing emptyRow medsColumns ("1 x ") (by decide)).1
  rw [h]
  decide

/-- C10 counterexample: the dispensed row (generic `A`, qty_x_form `B C`,
containers `3`) and the meds row (generic_name `A`, description `B`, package_qty
`C 3`, form `3`) build the same ProductKey `A B C 3 (3)` although the meds
package-qty value differs from the dispensed containers value, so key equality
does not force the component equality the claim asserts. -/
theorem key_collision_counterexample :
    preprocess_product dispRowC dispensedColumns ("1 x ") =
      preprocess_product medsRowC medsColumns ("1 x ") ∧
    preprocess_product dispRowC dispensedColumns ("1 x ") =
      Except.ok ("A B C 3 (3)") ∧
    dispRowC ("containers") ≠ medsRowC ("package_qty") := by
  refine ⟨by decide, by decide, by decide⟩

/-- C10 (amended): the dispensed role mapping sends both the package_qty and the
form role to the physical `containers` column, so the key built for a dispensed
row embeds the containers value twice — once rendered in the package-qty
position and once trimmed and lowercased in the parenthesized form position;
key equality with a meds-on-hand key, however, does not force component-wise
equality, the space-joined format not being injective. -/
theorem dispensed_key_embeds_containers_twice (row : String → Option PyVal)
    (hnd : isNum (pyGet row ("qty_x_form") defaultCell) = false) :
    preprocess_product row dispensedColumns ("1 x ") =
      Except.ok (pyRender (pyGet row ("generic") defaultCell) ++ " " ++
        pyRender (stripD (pyGet row ("qty_x_form") defaultCell) ("1 x ")) ++ " " ++
        pyRender (pyGet row ("containers") defaultCell) ++ " (" ++
        strLower (strTrim (pyRender (pyGet row ("containers") defaultCell))) ++
        ")") := by
  simpa [mkKey, dispensedColumns] using
    preprocess_eq row dispensedColumns ("1 x ") hnd

/-- C10 amended-claim witness: on the concrete dispensed row the key embeds the
containers value `3` in both positions. -/
theorem dispensed_key_embeds_containers_twice_witness :
    preprocess_product dispRowC dispensedColumns ("1 x ") =
      Except.ok (pyRender (pyGet dispRowC ("generic") defaultCell) ++ " " ++
        pyRender (stripD (pyGet dispRowC ("qty_x_form") defaultCell) ("1 x ")) ++
        " " ++ pyRender (pyGet dispRowC ("containers") defaultCell) ++ " (" ++
        strLower (strTrim (pyRender (pyGet dispRowC ("containers") defaultCell))) ++
        ")") :=
  dispensed_key_embeds_containers_twice dispRowC (by decide)

lemma char_toLower_idem (c : Char) : c.toLower.toLower = c.toLower := by
  by_cases h : 65 ≤ c.toNat ∧ c.toNat ≤ 90
  · have hv : (c.toNat + 32).isValidChar := Or.inl (by omega)
    have ht : (Char.ofNat (c.toNat + 32)).toNat = c.toNat + 32 := by
      unfold Char.ofNat
      rw [dif_pos hv]
      rfl
    have h1 : c.toLower = Char.ofNat (c.toNat + 32) := by
      unfold Char.toLower
      rw [if_pos]
      exact ⟨h.1, h.2⟩
    rw [h1]
    unfold Char.toLower
    rw [if_neg]
    rw [ht]
    omega
  · have h1 : c.toLower = c := by
      unfold Char.toLower
      rw [if_neg]
      intro hc
      exact h ⟨hc.1, hc.2⟩
    rw [h1, h1]

lemma normChar_idem (c : Char) :
    (if (if c.toLower = ' ' then '_' else c.toLower).toLower = ' ' then '_'
     else (if c.toLower = ' ' then '_' else c.toLower).toLower) =
    (if c.toLower = ' ' then '_' else c.toLower) := by
  by_cases hd : c.toLower = ' '
  · simp [hd]
  · simp [hd, char_toLower_idem c]

/-- C7: the column normalizer is idempotent — applying `standardize_columns`
twice to any table's headers yields the same headers as applying it once. -/
theorem standardize_columns_idempotent (cols : List String) :
    standardize_columns (standardize_columns cols) = standardize_columns cols := by
  unfold standardize_columns
  rw [List.map_map]
  apply List.map_congr_left
  intro s _
  show underscoreSpaces (strLower (underscoreSpaces (strLower s))) =
    underscoreSpaces (strLower s)
  simp only [strLower, underscoreSpaces, List.map_map]
  congr 1
  apply List.map_congr_left
  intro c _
  simp only [Function.comp_apply]
  exact normChar_idem c

/-- C9: when some required column is missing from the reconciled table, the run
halts with exactly the list of missing required column names — those required
columns not present — and produces no per-row quantity; the error value is the
full missing list. -/
theorem missing_columns_halt (cols : List String) (rows : List ReconRow)
    (T : ℚ) (h : missing_columns cols ≠ []) :
    run_calculation cols rows T = Except.error (missing_columns cols) ∧
    ∀ c, c ∈ missing_columns cols ↔ c ∈ required_columns ∧ c ∉ cols := by
  constructor
  · simp [run_calculation, h]
  · intro c
    simp [missing_columns, List.mem_filter]

/-- C9 witness: with only `on_hand` present, the run stops with the two dispensed
totals reported missing and no quantity computed. -/
theorem missing_columns_halt_witness :
    run_calculation ["on_hand"] [] 2 = Except.error (missing_columns ["on_hand"]) :=
  (missing_columns_halt ["on_hand"] [] 2 (by decide)).1

lemma lookupVal_of_mem (tbl : List (String × Option ℚ))
    (h : (tbl.map Prod.fst).Nodup) {k : String} {v : Option ℚ}
    (hm : (k, v) ∈ tbl) : lookupVal tbl k = v := by
  induction tbl with
  | nil => simp at hm
  | cons t rest ih =>
    simp only [List.map_cons, List.nodup_cons] at h
    rcases List.mem_cons.mp hm with heq | hmem
    · rw [← heq]
      unfold lookupVal
      simp [List.find?]
    · have hk : k ∈ rest.map Prod.fst := List.mem_map.mpr ⟨(k, v), hmem, rfl⟩
      have hteq : ¬ t.1 = k := fun hte => h.1 (hte ▸ hk)
      have hne : (t.1 == k) = false := by simp [hteq]
      unfold lookupVal
      simp only [List.find?, hne]
      exact ih h.2 hmem

lemma lookupVal_eq_none (tbl : List (String × Option ℚ)) {k : String}
    (h : k ∉ tbl.map Prod.fst) : lookupVal tbl k = none := by
  unfold lookupVal
  have hf : tbl.find? (fun t => t.1 == k) = none := by
    rw [List.find?_eq_none]
    intro x hx
    simp only [beq_iff_eq]
    intro hxk
    exact h (List.mem_map.mpr ⟨x, hx, hxk⟩)
  rw [hf]

lemma leftMergeOn_sound {α : Type} (rows : List α) (key : α → String)
    (tbl : List (String × Option ℚ)) (h : (tbl.map Prod.fst).Nodup) :
    ∀ p ∈ leftMergeOn rows key tbl, p.1 ∈ rows ∧ p.2 = lookupVal tbl (key p.1) := by
  intro p hp
  unfold leftMergeOn at hp
  rw [List.mem_flatMap] at hp
  obtain ⟨r, hr, hpr⟩ := hp
  by_cases hms : (tbl.filter (fun t => t.1 == key r)).isEmpty
  · rw [if_pos hms] at hpr
    have hpe : p = (r, none) := by simpa using hpr
    subst hpe
    refine ⟨hr, ?_⟩
    have hknotin : key r ∉ tbl.map Prod.fst := by
      intro hkin
      obtain ⟨t, ht, htk⟩ := List.mem_map.mp hkin
      have htf : t ∈ tbl.filter (fun t => t.1 == key r) :=
        List.mem_filter.mpr ⟨ht, by simp [htk]⟩
      rw [List.isEmpty_iff.mp hms] at htf
      simp at htf
    rw [lookupVal_eq_none tbl hknotin]
  · rw [if_neg hms] at hpr
    rw [List.mem_map] at hpr
    obtain ⟨t, ht, hpt⟩ := hpr
    obtain ⟨htbl, htk⟩ := List.mem_filter.mp ht
    have hteq : t.1 = key r := by simpa using htk
    have hmem2 : (key r, t.2) ∈ tbl := by
      have hts : (key r, t.2) = t := by
        rw [← hteq]
      rw [hts]
      exact htbl
    rw [← hpt]
    exact ⟨hr, (lookupVal_of_mem tbl h hmem2).symm⟩

/-- C4: under the spec's per-source key-uniqueness invariant, every row of the
reconciled table resolves `on_hand` by preferring the products-on-hand value for
its key when that value is non-null — regardless of the meds-on-hand value — and
falling back to the meds-on-hand value (null when the key is absent there) when
the products-on-hand value is null or its key absent; the fallback column itself
is dropped from the output rows. -/
theorem on_hand_resolution (d2 d6 prods meds : List (String × Option ℚ))
    (hp : (prods.map Prod.fst).Nodup) (hm : (meds.map Prod.fst).Nodup) :
    ∀ r ∈ reconcile d2 d6 prods meds,
      (∀ v : ℚ, lookupVal prods r.product = some v → r.on_hand = some v) ∧
      (lookupVal prods r.product = none →
        r.on_hand = lookupVal meds r.product) := by
  intro r hr
  unfold reconcile at hr
  rw [List.mem_map] at hr
  obtain ⟨p, hp2, hrp⟩ := hr
  obtain ⟨hp1, hmeds⟩ := leftMergeOn_sound _ _ meds hm p hp2
  obtain ⟨hp0, hprods⟩ := leftMergeOn_sound _ _ prods hp p.1 hp1
  subst hrp
  constructor
  · intro v hv
    simp only [combine_first, hprods]
    simp only at hv
    rw [hv]
    simp
  · intro h0
    simp only at h0
    simp only [combine_first, hprods, hmeds, h0]
    simp

/-- C4 witness: in the concrete tables, key `k1` (products value 5, meds value 7)
resolves to 5, and key `k2` (products value null, meds value 9) falls back to the
meds value. -/
theorem on_hand_resolution_witness :
    ({ product := "k1", total_units_past_2_months := some 10,
       total_units_past_6_months := none, on_hand := some 5 } : CombinedRow).on_hand =
      some 5 ∧
    ({ product := "k2", total_units_past_2_months := some 20,
       total_units_past_6_months := none, on_hand := some 9 } : CombinedRow).on_hand =
      lookupVal medsC ("k2") :=
  ⟨(on_hand_resolution d2C d6C prodsC medsC (by decide) (by decide)
      { product := "k1", total_units_past_2_months := some 10,
        total_units_past_6_months := none, on_hand := some 5 } (by decide)).1 5
      (by decide),
   (on_hand_resolution d2C d6C prodsC medsC (by decide) (by decide)
      { product := "k2", total_units_past_2_months := some 20,
        total_units_past_6_months := none, on_hand := some 9 } (by decide)).2
      (by decide)⟩

lemma filter_key_len (tbl : List (String × Option ℚ))
    (h : (tbl.map Prod.fst).Nodup) (k : String) :
    (tbl.filter (fun t => t.1 == k)).length =
      if k ∈ tbl.map Prod.fst then 1 else 0 := by
  induction tbl with
  | nil => simp
  | cons t rest ih =>
    simp only [List.map_cons, List.nodup_cons] at h
    rw [List.filter_cons]
    simp only [List.map_cons]
    by_cases hk : t.1 = k
    · rw [if_pos (by simp [hk])]
      have h0 : (rest.filter (fun t' => t'.1 == k)).length = 0 := by
        rw [ih h.2, if_neg]
        intro hmem
        exact h.1 (hk ▸ hmem)
      simp only [List.length_cons, h0]
      rw [if_pos (List.mem_cons.mpr (Or.inl hk.symm))]
    · rw [if_neg (by simp [hk])]
      rw [ih h.2]
      by_cases hk2 : k ∈ rest.map Prod.fst
      · rw [if_pos hk2, if_pos (List.mem_cons_of_mem _ hk2)]
      · rw [if_neg hk2, if_neg]
        intro hcon
        rcases List.mem_cons.mp hcon with hce | hcm
        · exact hk hce.symm
        · exact hk2 hcm

lemma mem_keys_of_filter_not_empty (tbl : List (String × Option ℚ)) (k : String)
    (h : ¬ (tbl.filter (fun t => t.1 == k)).isEmpty = true) :
    k ∈ tbl.map Prod.fst := by
  have hne : tbl.filter (fun t => t.1 == k) ≠ [] := by
    simpa [List.isEmpty_iff] using h
  obtain ⟨t, ht⟩ := List.exists_mem_of_ne_nil _ hne
  obtain ⟨htbl, htk⟩ := List.mem_filter.mp ht
  exact List.mem_map.mpr ⟨t, htbl, by simpa using htk⟩

lemma block_countP (d6 : List (String × Option ℚ)) (h6 : (d6.map Prod.fst).Nodup)
    (ra : String × Option ℚ) (k : String) :
    ((if (d6.filter (fun rb => rb.1 == ra.1)).isEmpty
        then [(ra.1, ra.2, (none : Option ℚ))]
        else (d6.filter (fun rb => rb.1 == ra.1)).map
          (fun rb => (ra.1, ra.2, rb.2))).countP (fun x => x.1 == k)) =
      if ra.1 = k then 1 else 0 := by
  by_cases hra : ra.1 = k
  · subst hra
    rw [if_pos rfl]
    split_ifs with hemp
    · simp
    · rw [List.countP_map]
      have hcomp : ((fun (x : String × Option ℚ × Option ℚ) => x.1 == ra.1) ∘
          (fun (rb : String × Option ℚ) => (ra.1, ra.2, rb.2))) = fun _ => true := by
        funext rb
        simp
      rw [hcomp, List.countP_true]
      rw [filter_key_len d6 h6 ra.1]
      rw [if_pos (mem_keys_of_filter_not_empty d6 ra.1 hemp)]
  · rw [if_neg hra, List.countP_eq_zero]
    intro x hx
    split_ifs at hx with hemp
    · have hxe : x = (ra.1, ra.2, none) := by simpa using hx
      simp [hxe, hra]
    · rw [List.mem_map] at hx
      obtain ⟨rb, _, hrbe⟩ := hx
      simp [← hrbe, hra]

lemma countA (d6 : List (String × Option ℚ)) (h6 : (d6.map Prod.fst).Nodup)
    (k : String) :
    ∀ d2 : List (String × Option ℚ), (d2.map Prod.fst).Nodup →
      ((d2.flatMap (fun ra =>
          if (d6.filter (fun rb => rb.1 == ra.1)).isEmpty
          then [(ra.1, ra.2, (none : Option ℚ))]
          else (d6.filter (fun rb => rb.1 == ra.1)).map
            (fun rb => (ra.1, ra.2, rb.2)))).countP (fun x => x.1 == k)) =
      if k ∈ d2.map Prod.fst then 1 else 0 := by
  intro d2
  induction d2 with
  | nil => simp
  | cons ra t ih =>
    intro h2
    simp only [List.map_cons, List.nodup_cons] at h2
    rw [List.flatMap_cons, List.countP_append]
    rw [block_countP d6 h6 ra k, ih h2.2]
    simp only [List.map_cons]
    by_cases hra : ra.1 = k
    · have hnt : k ∉ t.map Prod.fst := fun hm => h2.1 (hra ▸ hm)
      rw [if_pos hra, if_neg hnt, if_pos (List.mem_cons.mpr (Or.inl hra.symm))]
    · rw [if_neg hra]
      by_cases hk2 : k ∈ t.map Prod.fst
      · rw [if_pos hk2, if_pos (List.mem_cons_of_mem _ hk2)]
      · rw [if_neg hk2, if_neg]
        intro hcon
        rcases List.mem_cons.mp hcon with hce | hcm
        · exact hra hce.symm
        · exact hk2 hcm

lemma countB (d2 d6 : List (String × Option ℚ)) (h6 : (d6.map Prod.fst).Nodup)
    (k : String) :
    (((d6.filter (fun rb => !(d2.any (fun ra => ra.1 == rb.1)))).map
        (fun rb => (rb.1, (none : Option ℚ), rb.2))).countP (fun x => x.1 == k)) =
      if k ∈ d2.map Prod.fst then 0
      else if k ∈ d6.map Prod.fst then 1 else 0 := by
  rw [List.countP_map]
  have hcomp : ((fun (x : String × Option ℚ × Option ℚ) => x.1 == k) ∘
      (fun (rb : String × Option ℚ) => (rb.1, (none : Option ℚ), rb.2))) =
      fun rb => rb.1 == k := by
    funext rb
    rfl
  rw [hcomp, List.countP_filter]
  by_cases hk2 : k ∈ d2.map Prod.fst
  · rw [if_pos hk2, List.countP_eq_zero]
    intro rb hrb
    simp only [Bool.and_eq_true, beq_iff_eq, Bool.not_eq_true']
    rintro ⟨hbk, hany⟩
    obtain ⟨ra, hra, hrak⟩ := List.mem_map.mp hk2
    have hat : d2.any (fun ra => ra.1 == rb.1) = true :=
      List.any_eq_true.mpr ⟨ra, hra, by simp [hrak, hbk]⟩
    rw [hat] at hany
    exact Bool.noConfusion hany
  · rw [if_neg hk2]
    have hcg : ∀ rb ∈ d6,
        ((rb.1 == k) && !(d2.any (fun ra => ra.1 == rb.1))) = true ↔
        (rb.1 == k) = true := by
      intro rb _
      by_cases hbk : rb.1 = k
      · have hanyf : d2.any (fun ra => ra.1 == rb.1) = false := by
          by_contra hc
          rw [Bool.not_eq_false, List.any_eq_true] at hc
          obtain ⟨ra, hra, hrak⟩ := hc
          exact hk2 (List.mem_map.mpr ⟨ra, hra, by simpa [hbk] using hrak⟩)
        rw [hanyf]
        simp [hbk]
      · simp [hbk]
    rw [List.countP_congr hcg]
    rw [List.countP_eq_length_filter]
    rw [filter_key_len d6 h6 k]

/-- C5: assuming ProductKey uniqueness within each dispensed table, every key
present in either the 2-month or the 6-month table appears exactly once in the
outer-join result, and a key present in only one of the two tables appears with
the other window's total null. -/
theorem outer_join_complete (d2 d6 : List (String × Option ℚ))
    (hd2 : (d2.map Prod.fst).Nodup) (hd6 : (d6.map Prod.fst).Nodup) (k : String)
    (hk : k ∈ d2.map Prod.fst ∨ k ∈ d6.map Prod.fst) :
    ((outerMerge d2 d6).map (fun r => r.1)).count k = 1 ∧
    (k ∉ d6.map Prod.fst → ∀ r ∈ outerMerge d2 d6, r.1 = k → r.2.2 = none) ∧
    (k ∉ d2.map Prod.fst → ∀ r ∈ outerMerge d2 d6, r.1 = k → r.2.1 = none) := by
  refine ⟨?_, ?_, ?_⟩
  · have hc : ((outerMerge d2 d6).map (fun r => r.1)).count k =
        (outerMerge d2 d6).countP (fun r => r.1 == k) := by
      rw [List.count_eq_countP, List.countP_map]
      rfl
    rw [hc]
    simp only [outerMerge]
    rw [List.countP_append]
    rw [countA d6 hd6 k d2 hd2, countB d2 d6 hd6 k]
    by_cases h2 : k ∈ d2.map Prod.fst
    · rw [if_pos h2, if_pos h2]
    · rw [if_neg h2, if_neg h2, if_pos (hk.resolve_left h2)]
  · intro hk6 r hr hrk
    rcases List.mem_append.mp (by simpa only [outerMerge] using hr) with hA | hB
    · rw [List.mem_flatMap] at hA
      obtain ⟨ra, hra, hblock⟩ := hA
      split_ifs at hblock with hemp
      · have hre : r = (ra.1, ra.2, none) := by simpa using hblock
        rw [hre]
      · rw [List.mem_map] at hblock
        obtain ⟨rb, hrb, hrbe⟩ := hblock
        obtain ⟨hrb6, hrbk⟩ := List.mem_filter.mp hrb
        exfalso
        apply hk6
        have h1 : rb.1 = ra.1 := by simpa using hrbk
        have hra1 : r.1 = ra.1 := by rw [← hrbe]
        exact List.mem_map.mpr ⟨rb, hrb6, by rw [h1, ← hra1, hrk]⟩
    · rw [List.mem_map] at hB
      obtain ⟨rb, hrb, hrbe⟩ := hB
      obtain ⟨hrb6, _⟩ := List.mem_filter.mp hrb
      exfalso
      apply hk6
      have hrb1 : r.1 = rb.1 := by rw [← hrbe]
      exact List.mem_map.mpr ⟨rb, hrb6, by rw [← hrb1, hrk]⟩
  · intro hk2 r hr hrk
    rcases List.mem_append.mp (by simpa only [outerMerge] using hr) with hA | hB
    · rw [List.mem_flatMap] at hA
      obtain ⟨ra, hra, hblock⟩ := hA
      exfalso
      apply hk2
      have h1 : r.1 = ra.1 := by
        split_ifs at hblock with hemp
        · have hre : r = (ra.1, ra.2, none) := by simpa using hblock
          rw [hre]
        · rw [List.mem_map] at hblock
          obtain ⟨rb, _, hrbe⟩ := hblock
          rw [← hrbe]
      exact List.mem_map.mpr ⟨ra, hra, by rw [← h1, hrk]⟩
    · rw [List.mem_map] at hB
      obtain ⟨rb, _, hrbe⟩ := hB
      rw [← hrbe]

/-- C5 witness: key `k3`, present only in the 6-month table, appears exactly
once in the outer join of the concrete tables. -/
theorem outer_join_complete_witness :
    ((outerMerge d2C d6C).map (fun r => r.1)).count ("k3") = 1 :=
  (outer_join_complete d2C d6C (by decide) (by decide) ("k3") (Or.inr (by decide))).1
